import Mathlib

/-!
Verification development for the Pyodide-based Python evaluator of
py-slang-pyscript.  The definitions below are a shallow embedding of the
TypeScript sources:

* `src/src/python/index.ts` — the import scanner (`extractImports`,
  `parseImportItems`, `extractPackageNames`, `isBuiltinPythonModule`),
  the package classifier tables (`PYODIDE_BUILTIN_PACKAGES`,
  `SPECIAL_HANDLING_PACKAGES`, `isPyodideBuiltinPackage`,
  `getPyodidePackageName`), the evaluator (`ensurePyodideLoaded`,
  `evaluateChunk`, `formatError`) and the package manager
  (`loadPackageWithStrategy`, `loadPackages`, `loadWithPyodide`,
  `loadWithMicropip`, the cache maps).

Strings are handled as `List Char`; the JavaScript regular expressions
used by the scanner are hand-translated to recursive matchers that follow
the regex semantics on the inputs the code feeds them (single physical
lines with the greedy character classes of the patterns, which exclude
whitespace, so no backtracking beyond what is modelled can occur).
JavaScript `Map`/`Set` are modelled as association lists / lists with the
insertion-order replace-or-append behaviour of `Map.set` and `Set.add`.
-/

/-- Character class of the JavaScript regex `[a-zA-Z0-9_]` (ASCII `\w`). -/
def isIdentChar (c : Char) : Bool := c.isAlphanum || c = '_'

/-- Character class `[a-zA-Z0-9_.]` used for dotted module paths. -/
def isModuleChar (c : Char) : Bool := isIdentChar c || c = '.'

/-- Character class `[a-zA-Z0-9_*]` used for imported items (wildcard allowed). -/
def isItemChar (c : Char) : Bool := isIdentChar c || c = '*'

/-- JavaScript whitespace (`\s` / `trim`) restricted to the ASCII characters
that can occur inside a physical line: space, tab, newline, carriage return,
vertical tab and form feed. -/
def isJsSpace (c : Char) : Bool :=
  c = ' ' || c = '\t' || c = '\n' || c = '\r' || c = '\x0b' || c = '\x0c'

/-- Strip a literal character sequence from the front of a string, the way a
regex matches a literal: returns the rest on success. -/
def stripLiteral : List Char → List Char → Option (List Char)
  | [], cs => some cs
  | _ :: _, [] => none
  | p :: ps, c :: cs => if c = p then stripLiteral ps cs else none

/-- JavaScript `String.prototype.trim` on a line (both ends). -/
def trimChars (cs : List Char) : List Char :=
  ((cs.dropWhile isJsSpace).reverse.dropWhile isJsSpace).reverse

/-- JavaScript `String.prototype.split` on a single separator character:
`"".split(sep)` is `[""]`, separators at the ends produce empty fields. -/
def splitOnChar (sep : Char) : List Char → List (List Char)
  | [] => [[]]
  | c :: cs =>
    let r := splitOnChar sep cs
    if c = sep then [] :: r
    else
      match r with
      | [] => [[c]]
      | h :: t => (c :: h) :: t

/-- The `ImportStatement` record of `src/src/python/types/package.ts`.
The TypeScript field `alias` is called `aliasName` here (`alias` is a Lean
keyword); `items` is `none` for plain imports, mirroring the optional field. -/
structure ImportStatement where
  module : String
  items : Option (List String)
  aliasName : Option String
  isFromImport : Bool
  line : Nat
deriving Repr, DecidableEq

/-- Matcher for the optional group `(?:\s+as\s+([a-zA-Z0-9_]+))?` of the
plain-import regex, applied after the module path; `none` means the group
did not participate (the alias is absent). -/
def matchAliasSuffix (cs : List Char) : Option String :=
  if (cs.takeWhile isJsSpace).isEmpty then none
  else
    match stripLiteral ['a', 's'] (cs.dropWhile isJsSpace) with
    | none => none
    | some r1 =>
      if (r1.takeWhile isJsSpace).isEmpty then none
      else
        let r2 := r1.dropWhile isJsSpace
        let al := r2.takeWhile isIdentChar
        if al.isEmpty then none else some (String.mk al)

/-- Matcher for `/^import\s+([a-zA-Z0-9_][a-zA-Z0-9_.]*)(?:\s+as\s+([a-zA-Z0-9_]+))?/`
from `extractImports`.  Returns the module path and the optional alias. -/
def matchPlainImport (cs : List Char) : Option (String × Option String) :=
  match stripLiteral ['i', 'm', 'p', 'o', 'r', 't'] cs with
  | none => none
  | some rest =>
    if (rest.takeWhile isJsSpace).isEmpty then none
    else
      let r1 := rest.dropWhile isJsSpace
      match r1 with
      | [] => none
      | c :: _ =>
        if isIdentChar c then
          some (String.mk (r1.takeWhile isModuleChar), matchAliasSuffix (r1.dropWhile isModuleChar))
        else none

/-- Matcher for `/^from\s+([a-zA-Z0-9_][a-zA-Z0-9_.]*)\s+import\s+(.+)/` from
`extractImports`.  Returns the module path and the raw item part matched by
`(.+)`.  When everything after `import` is whitespace the regex backtracks one
space into `(.+)`, which is modelled by the penultimate branch. -/
def matchFromImport (cs : List Char) : Option (String × List Char) :=
  match stripLiteral ['f', 'r', 'o', 'm'] cs with
  | none => none
  | some rest =>
    if (rest.takeWhile isJsSpace).isEmpty then none
    else
      let r1 := rest.dropWhile isJsSpace
      match r1 with
      | [] => none
      | c :: _ =>
        if isIdentChar c then
          let r2 := r1.dropWhile isModuleChar
          if (r2.takeWhile isJsSpace).isEmpty then none
          else
            match stripLiteral ['i', 'm', 'p', 'o', 'r', 't'] (r2.dropWhile isJsSpace) with
            | none => none
            | some r3 =>
              let sp := r3.takeWhile isJsSpace
              let rest4 := r3.dropWhile isJsSpace
              if sp.isEmpty then none
              else if rest4.isEmpty then
                if 2 ≤ sp.length then some (String.mk (r1.takeWhile isModuleChar), [' '])
                else none
              else some (String.mk (r1.takeWhile isModuleChar), rest4)
        else none

/-- Matcher for `/^([a-zA-Z0-9_]+)\s+as\s+([a-zA-Z0-9_]+)$/` used by
`parseImportItems` on one comma-separated item. -/
def matchItemAlias (cs : List Char) : Option (String × String) :=
  let name := cs.takeWhile isIdentChar
  if name.isEmpty then none
  else
    let r1 := cs.dropWhile isIdentChar
    if (r1.takeWhile isJsSpace).isEmpty then none
    else
      match stripLiteral ['a', 's'] (r1.dropWhile isJsSpace) with
      | none => none
      | some r2 =>
        if (r2.takeWhile isJsSpace).isEmpty then none
        else
          let r3 := r2.dropWhile isJsSpace
          let al := r3.takeWhile isIdentChar
          if al.isEmpty then none
          else if (r3.dropWhile isIdentChar).isEmpty then
            some (String.mk name, String.mk al)
          else none

/-- Matcher for `/^([a-zA-Z0-9_*]+)$/` used by `parseImportItems`. -/
def matchItemSimple (cs : List Char) : Option String :=
  if cs.isEmpty then none
  else if cs.all isItemChar then some (String.mk cs) else none

/-- `parseImportItems` of `import-parser.ts`: split the item part on commas,
trim each part, and keep parts matching the alias form (name and alias) or the
simple form (bare name, `*` allowed); other parts are dropped. -/
def parseImportItems (importPart : List Char) : List (String × Option String) :=
  (splitOnChar ',' importPart).filterMap fun rawPart =>
    let part := trimChars rawPart
    match matchItemAlias part with
    | some na => some (na.1, some na.2)
    | none =>
      match matchItemSimple part with
      | some n => some (n, none)
      | none => none

/-- One iteration of the line loop of `extractImports`: trim the line, skip
comments and blank lines, try the plain-import regex then the from-import
regex, and emit at most one `ImportStatement` carrying the 1-based line
number.  For from-imports only the item names are kept
(`items.map(item => item.name)`); the per-item aliases are discarded and the
statement's `alias` field is left unset. -/
def scanLine (raw : List Char) (lineNo : Nat) : List ImportStatement :=
  let line := trimChars raw
  if line.head? = some '#' || line.isEmpty then []
  else
    match matchPlainImport line with
    | some ma => [⟨ma.1, none, ma.2, false, lineNo⟩]
    | none =>
      match matchFromImport line with
      | some mf =>
        [⟨mf.1, some ((parseImportItems mf.2).map Prod.fst), none, true, lineNo⟩]
      | none => []

/-- The line loop of `extractImports`, starting at line number `n`. -/
def scanFrom (n : Nat) : List (List Char) → List ImportStatement
  | [] => []
  | l :: ls => scanLine l n ++ scanFrom (n + 1) ls

/-- `extractImports` of `import-parser.ts`: split the code on newlines and scan
each line, numbering lines from 1. -/
def extractImports (code : String) : List ImportStatement :=
  scanFrom 1 (splitOnChar '\n' code.data)

/-- The fixed standard-library table of `isBuiltinPythonModule`
(`import-parser.ts`), transcribed verbatim (including the duplicate
`contextlib` entry of the source). -/
def builtinModules : List String :=
  ["os", "sys", "json", "math", "random", "datetime", "time", "collections",
   "itertools", "functools", "operator", "pathlib", "glob", "shutil", "tempfile",
   "urllib", "http", "html", "xml", "csv", "configparser", "logging", "unittest",
   "io", "re", "string", "textwrap", "unicodedata", "calendar", "hashlib",
   "hmac", "secrets", "statistics", "decimal", "fractions", "contextlib",
   "abc", "numbers", "types", "copy", "pprint", "reprlib", "enum", "graphlib",
   "weakref", "gc", "inspect", "site", "importlib", "pkgutil", "modulefinder",
   "runpy", "traceback", "future", "keyword", "token", "tokenize", "ast",
   "symtable", "symbol", "dis", "pickletools", "formatter", "errno", "ctypes",
   "threading", "multiprocessing", "concurrent", "subprocess", "sched", "queue",
   "socketserver", "ssl", "asyncio", "socket", "signal", "mmap", "select",
   "selectors", "codecs", "locale", "gettext", "argparse", "optparse", "getopt",
   "cmd", "shlex", "platform", "warnings", "dataclasses", "contextlib",
   "typing", "pydoc", "doctest", "difflib", "rlcompleter", "tabnanny", "trace",
   "timeit", "cProfile", "profile", "pstats", "cgi", "cgitb", "wsgiref",
   "ftplib", "poplib", "imaplib", "nntplib", "smtplib", "smtpd", "telnetlib",
   "uuid", "zlib", "gzip", "bz2", "lzma", "zipfile", "tarfile"]

/-- `isBuiltinPythonModule` of `import-parser.ts`. -/
def isBuiltinPythonModule (moduleName : String) : Bool :=
  builtinModules.contains moduleName

/-- Insertion into a JavaScript `Set` modelled as an insertion-ordered list:
append when absent, keep unchanged when present. -/
def setAdd : List String → String → List String
  | [], x => [x]
  | s :: ss, x => if s = x then s :: ss else s :: setAdd ss x

/-- Membership test of a JavaScript `Set` modelled as a list (`Set.has`). -/
def setHas : List String → String → Bool
  | [], _ => false
  | s :: ss, x => if s = x then true else setHas ss x

/-- The first dotted segment of a module path (`module.split('.')[0]`). -/
def headSegment (module : String) : String :=
  String.mk (module.data.takeWhile (fun c => c ≠ '.'))

/-- `extractPackageNames` of `import-parser.ts`: collect the top-level segment
of each imported module into a `Set`, skipping standard-library modules.  The
JavaScript `Set` keeps insertion order, modelled by `setAdd`. -/
def extractPackageNames (imports : List ImportStatement) : List String :=
  imports.foldl
    (fun acc imp =>
      let top := headSegment imp.module
      if isBuiltinPythonModule top then acc else setAdd acc top)
    []

/-- `PYODIDE_BUILTIN_PACKAGES` of `config/pyodide-packages.ts`. -/
def pyodideBuiltinPackages : List String :=
  ["numpy", "pandas", "scipy", "matplotlib", "plotly", "bokeh", "seaborn",
   "scikit-learn", "tensorflow", "keras", "pytorch", "xgboost",
   "pillow", "opencv-python", "beautifulsoup4", "lxml", "requests", "urllib3",
   "sympy", "statsmodels", "networkx",
   "micropip", "pip",
   "pytest", "black", "mypy",
   "dateutil", "pytz", "six", "setuptools", "wheel", "packaging", "certifi",
   "charset-normalizer", "idna", "cycler", "kiwisolver", "pyparsing", "fonttools",
   "ipython", "jupyter", "notebook",
   "cryptography", "pycryptodome",
   "openpyxl", "xlrd", "h5py", "tables",
   "altair", "plotnine", "pygments",
   "patsy", "lifelines",
   "joblib", "tqdm", "click", "jinja2", "markupsafe"]

/-- `SPECIAL_HANDLING_PACKAGES` of `config/pyodide-packages.ts`: import-time
name to distribution name. -/
def specialHandlingPackages : List (String × String) :=
  [("cv2", "opencv-python"), ("PIL", "pillow"), ("sklearn", "scikit-learn"),
   ("torch", "pytorch"), ("tf", "tensorflow")]

/-- Association-list lookup modelling JavaScript `Map.get` (first matching
key; keys are unique because entries are only created by `mapSet`). -/
def mapGet? {α : Type} : List (String × α) → String → Option α
  | [], _ => none
  | e :: es, k => if e.1 = k then some e.2 else mapGet? es k

/-- JavaScript `Map.has` on an association list. -/
def mapHas {α : Type} : List (String × α) → String → Bool
  | [], _ => false
  | e :: es, k => if e.1 = k then true else mapHas es k

/-- JavaScript `Map.set` on an insertion-ordered association list: replace the
value in place when the key is present, append otherwise. -/
def mapSet {α : Type} : List (String × α) → String → α → List (String × α)
  | [], k, v => [(k, v)]
  | e :: es, k, v => if e.1 = k then (k, v) :: es else e :: mapSet es k v

/-- `isPyodideBuiltinPackage` of `config/pyodide-packages.ts`: direct
membership in the builtin table, then a second membership check through the
alias table. -/
def isPyodideBuiltinPackage (packageName : String) : Bool :=
  if pyodideBuiltinPackages.contains packageName then true
  else
    match mapGet? specialHandlingPackages packageName with
    | some actual => pyodideBuiltinPackages.contains actual
    | none => false

/-- `getPyodidePackageName` of `config/pyodide-packages.ts`: the alias-resolved
distribution name, or the input unchanged. -/
def getPyodidePackageName (packageName : String) : String :=
  (mapGet? specialHandlingPackages packageName).getD packageName

/-- The load method tag of `PackageLoadResult` (`'pyodide' | 'micropip'`). -/
inductive LoadMethod where
  | pyodide
  | micropip
deriving Repr, DecidableEq

/-- The `PackageLoadResult` record of `types/package.ts`. -/
structure PackageLoadResult where
  packageName : String
  success : Bool
  method : LoadMethod
  error : Option String
  loadTime : Nat
deriving Repr, DecidableEq

/-- The `PackageCache` record of `types/package.ts`: `loaded` is a `Set`,
`failed` and `loadTimestamps` are `Map`s. -/
structure PackageCache where
  loaded : List String
  failed : List (String × String)
  loadTimestamps : List (String × Nat)
deriving Repr, DecidableEq

/-- The empty cache built by the `PackageManager` constructor. -/
def emptyCache : PackageCache := ⟨[], [], []⟩

/-- The `PackageManagerConfig` record of `types/package.ts`. -/
structure PackageManagerConfig where
  enableCaching : Bool
  loadTimeout : Nat
  preloadEssentials : Bool
  verbose : Bool
deriving Repr, DecidableEq

/-- The constructor defaults of `PackageManager` (`package-manager.ts`). -/
def defaultConfig : PackageManagerConfig := ⟨true, 30000, true, false⟩

/-- Observable external calls made while loading one package: the native
loader `pyodide.loadPackage(actual)` and the `micropip.install(name)` command
run through `runPythonAsync`. -/
inductive LoadAction where
  | nativeLoad (actualName : String)
  | micropipInstall (packageName : String)
deriving Repr, DecidableEq

/-- Environment of one `loadPackageWithStrategy` call: the outcome each
external call would have (the `error` side carries the stringified fault),
whether `micropipReady` has been set, the `Date.now()` value used for the
timestamp, and the elapsed wall-clock time attached to non-cached results. -/
structure LoadEnv where
  micropipReady : Bool
  pyodideLoadOutcome : String → Except String Unit
  micropipInstallOutcome : String → Except String Unit
  now : Nat
  elapsed : Nat

/-- JavaScript `x || d` on an optional string (`undefined` and `""` are
falsy). -/
def jsOrElse (o : Option String) (d : String) : String :=
  match o with
  | some s => if s = "" then d else s
  | none => d

/-- `loadWithPyodide` of `package-manager.ts`: resolve the distribution name,
invoke the native loader, and wrap a fault with the attempted name.  The
second component records the external calls made. -/
def loadWithPyodide (env : LoadEnv) (packageName : String) :
    Except String PackageLoadResult × List LoadAction :=
  let actual := getPyodidePackageName packageName
  match env.pyodideLoadOutcome actual with
  | Except.ok _ => (Except.ok ⟨packageName, true, LoadMethod.pyodide, none, 0⟩, [LoadAction.nativeLoad actual])
  | Except.error e =>
    (Except.error ("Pyodide failed to load " ++ actual ++ ": " ++ e), [LoadAction.nativeLoad actual])

/-- `loadWithMicropip` of `package-manager.ts`: raise a descriptive error when
micropip is not ready (before touching the interpreter), otherwise run the
install command and wrap a fault with the package name. -/
def loadWithMicropip (env : LoadEnv) (packageName : String) :
    Except String PackageLoadResult × List LoadAction :=
  if env.micropipReady = false then
    (Except.error "micropip is not ready. Ensure essential packages are loaded first.", [])
  else
    match env.micropipInstallOutcome packageName with
    | Except.ok _ =>
      (Except.ok ⟨packageName, true, LoadMethod.micropip, none, 0⟩, [LoadAction.micropipInstall packageName])
    | Except.error e =>
      (Except.error ("micropip failed to install " ++ packageName ++ ": " ++ e),
       [LoadAction.micropipInstall packageName])

/-- The strategy choice of `loadPackageWithStrategy`: native loader for
builtin packages, micropip otherwise. -/
def strategyCall (env : LoadEnv) (packageName : String) :
    Except String PackageLoadResult × List LoadAction :=
  if isPyodideBuiltinPackage packageName then loadWithPyodide env packageName
  else loadWithMicropip env packageName

/-- The cache update of `loadPackageWithStrategy`, exactly as the code
performs it: on success add the name to `loaded` and stamp `loadTimestamps`
(the `failed` map is left untouched); on failure `failed.set(name, message)`.
Nothing happens when caching is disabled. -/
def cacheRecord (cfg : PackageManagerConfig) (env : LoadEnv) (c : PackageCache)
    (packageName : String) (r : Except String PackageLoadResult) : PackageCache :=
  if cfg.enableCaching then
    match r with
    | Except.ok res =>
      if res.success then
        ⟨setAdd c.loaded packageName, c.failed, mapSet c.loadTimestamps packageName env.now⟩
      else ⟨c.loaded, mapSet c.failed packageName (jsOrElse res.error "Unknown error"), c.loadTimestamps⟩
    | Except.error msg => ⟨c.loaded, mapSet c.failed packageName msg, c.loadTimestamps⟩
  else c

/-- `loadPackageWithStrategy` of `package-manager.ts`: cached success, then
cached failure, then the strategy call with cache recording; a thrown fault is
caught and converted into a failure result.  Returns the result, the updated
cache and the external calls made. -/
def loadPackageWithStrategy (env : LoadEnv) (cfg : PackageManagerConfig)
    (c : PackageCache) (packageName : String) :
    PackageLoadResult × PackageCache × List LoadAction :=
  if cfg.enableCaching && setHas c.loaded packageName then
    (⟨packageName, true, LoadMethod.pyodide, none, 0⟩, c, [])
  else if cfg.enableCaching && mapHas c.failed packageName then
    (⟨packageName, false, LoadMethod.pyodide, mapGet? c.failed packageName, 0⟩, c, [])
  else
    match strategyCall env packageName with
    | (Except.ok res, acts) =>
      ({ res with loadTime := env.elapsed }, cacheRecord cfg env c packageName (Except.ok res), acts)
    | (Except.error msg, acts) =>
      (⟨packageName, false, LoadMethod.pyodide, some msg, env.elapsed⟩,
       cacheRecord cfg env c packageName (Except.error msg), acts)

/-- How one dispatched promise of `loadPackages` settles: either the dispatch
ran `loadPackageWithStrategy` (with the environment and cache snapshot it
observed), or the dispatch itself faulted with an optional message
(`reason?.message`). -/
inductive DispatchOutcome where
  | completes (env : LoadEnv) (cache : PackageCache)
  | faults (reason : Option String)

/-- The per-index reassembly step of `loadPackages`: a fulfilled promise
contributes its value, a rejected one a failure result built from
`packageNames[i]` and `reason?.message || 'Unknown error'`. -/
def dispatchResult (cfg : PackageManagerConfig) (packageName : String) :
    DispatchOutcome → PackageLoadResult
  | DispatchOutcome.completes env cache => (loadPackageWithStrategy env cfg cache packageName).1
  | DispatchOutcome.faults reason =>
    ⟨packageName, false, LoadMethod.pyodide, some (jsOrElse reason "Unknown error"), 0⟩

/-- `loadPackages` of `package-manager.ts`: one concurrent dispatch per input
name, `Promise.allSettled`, then index-based reassembly in input order. -/
def loadPackages (cfg : PackageManagerConfig) (names : List String)
    (outcomes : List DispatchOutcome) : List PackageLoadResult :=
  (names.zip outcomes).map fun p => dispatchResult cfg p.1 p.2

/-- One sequential (non-overlapping) cache-mutating operation of the package
manager: a complete `loadPackageWithStrategy` call under some environment, or
`clearCache()`. -/
inductive CacheOp where
  | load (env : LoadEnv) (packageName : String)
  | clear

/-- Effect of a sequential operation on the cache. -/
def applyCacheOp (cfg : PackageManagerConfig) (c : PackageCache) : CacheOp → PackageCache
  | CacheOp.load env n => (loadPackageWithStrategy env cfg c n).2.1
  | CacheOp.clear => emptyCache

/-- The cache after a sequence of non-overlapping manager operations. -/
def runCacheOps (cfg : PackageManagerConfig) (c : PackageCache) (ops : List CacheOp) : PackageCache :=
  ops.foldl (applyCacheOp cfg) c

/-- The load-cache exclusivity property of the data model: no package name is
in both the `loaded` set and the `failed` map. -/
def exclusiveCache (c : PackageCache) : Bool :=
  c.loaded.all fun p => !(mapHas c.failed p)

/-- Interleaved manager state: the cache plus the dispatched loads that have
passed the cache check but whose strategy call has not yet settled.  Each
in-flight entry carries the name and the outcome its settling will deliver
(the final recorded error message on the failure side). -/
structure MgrState where
  cache : PackageCache
  inFlight : List (String × Bool × String)

/-- Small-step semantics of overlapping `loadPackageWithStrategy` calls under
caching, following the await structure of the code: the two cache checks
happen synchronously at dispatch time; the cache update happens only when the
awaited strategy call settles.  `dispatch` admits a load whose cache checks
missed (an in-flight entry carries the name, whether the strategy call will
succeed, and the error message recorded on failure); `settleOk` and
`settleErr` apply exactly the success / failure cache updates of the code
(the success update does not touch `failed`). -/
inductive MgrStep (cfg : PackageManagerConfig) (t : Nat) : MgrState → MgrState → Prop
  | dispatch (s : MgrState) (n : String) (ok : Bool) (msg : String) :
      cfg.enableCaching = true →
      setHas s.cache.loaded n = false →
      mapHas s.cache.failed n = false →
      MgrStep cfg t s ⟨s.cache, s.inFlight ++ [(n, ok, msg)]⟩
  | settleOk (s : MgrState) (n : String) (msg : String)
      (pre post : List (String × Bool × String)) :
      s.inFlight = pre ++ (n, true, msg) :: post →
      MgrStep cfg t s
        ⟨⟨setAdd s.cache.loaded n, s.cache.failed, mapSet s.cache.loadTimestamps n t⟩, pre ++ post⟩
  | settleErr (s : MgrState) (n : String) (msg : String)
      (pre post : List (String × Bool × String)) :
      s.inFlight = pre ++ (n, false, msg) :: post →
      MgrStep cfg t s
        ⟨⟨s.cache.loaded, mapSet s.cache.failed n msg, s.cache.loadTimestamps⟩, pre ++ post⟩

/-- The initial manager state: empty cache, nothing in flight. -/
def mgrInit : MgrState := ⟨emptyCache, []⟩

/-- The module-level globals of `python-evaluator.ts` that govern interpreter
initialization: `pyodideReady` holds the stored pending operation (identified
by a serial number), `nextOp` is the next fresh identifier, and `startedOps`
counts how many underlying initialization operations were ever started. -/
structure EvalGlobals where
  pyodideReady : Option Nat
  nextOp : Nat
  startedOps : Nat
deriving Repr, DecidableEq

/-- The fresh worker state: no pending initialization. -/
def initGlobals : EvalGlobals := ⟨none, 0, 0⟩

/-- `ensurePyodideLoaded` of `python-evaluator.ts`.  The body up to the
assignment of `pyodideReady` runs synchronously (there is no suspension point
before it), so overlapping calls are serialized exactly as consecutive calls
of this state function.  When `pyodideReady` is unset the function loads the
pyodide script (`scriptLoads` is the outcome of `importScripts`; on failure
the call throws without creating an operation), starts the initialization
operation, stores it, and returns it; otherwise it returns the stored
operation unchanged. -/
def ensurePyodideLoaded (scriptLoads : Bool) (s : EvalGlobals) :
    EvalGlobals × Except String Nat :=
  match s.pyodideReady with
  | some op => (s, Except.ok op)
  | none =>
    if scriptLoads then
      (⟨some s.nextOp, s.nextOp + 1, s.startedOps + 1⟩, Except.ok s.nextOp)
    else (s, Except.error "Failed to load Pyodide script")

/-- The state after `n` consecutive successful-script calls of
`ensurePyodideLoaded` starting from the fresh worker state. -/
def ensureIter : Nat → EvalGlobals
  | 0 => initGlobals
  | n + 1 => (ensurePyodideLoaded true (ensureIter n)).1

/-- Strip an anchored wrapper from the front of a string at most once: the
semantics of JavaScript `message.replace(/^pat /, "")` for a literal
pattern. -/
def replaceAnchored (pat : List Char) (s : List Char) : List Char :=
  match stripLiteral pat s with
  | some r => r
  | none => s

/-- Remove the first occurrence of a literal pattern anywhere in the string:
the semantics of JavaScript `message.replace(/pat /, "")`. -/
def replaceOnce (pat : List Char) : List Char → List Char
  | [] =>
    match stripLiteral pat [] with
    | some r => r
    | none => []
  | c :: cs =>
    match stripLiteral pat (c :: cs) with
    | some r => r
    | none => c :: replaceOnce pat cs

/-- The replacement chain of `PythonEvaluator.formatError`, applied to the
extracted message string: strip a leading `"Error: "` once, then a leading
`"Python execution failed: "` once, then the first occurrence of
`"PythonError: "` once, in that order. -/
def formatError (message : String) : String :=
  String.mk (replaceOnce "PythonError: ".data
    (replaceAnchored "Python execution failed: ".data
      (replaceAnchored "Error: ".data message.data)))

/-- Environment of one `evaluateChunk` call: the outcome of
`ensurePyodideLoaded` (together with the instance/manager availability check),
the outcome of `loadPackagesFromCode` (its error side carries the stringified
fault), and the outcome of `runPythonAsync` on the chunk (its error side
carries the stringified guest fault `${error}`). -/
structure ChunkEnv where
  initOutcome : Except String Unit
  loadOutcome : Except String (List PackageLoadResult)
  execOutcome : Except String Unit
deriving Repr

/-- The labeled error line sent by `evaluateChunk`'s catch handler. -/
def pythonErrorLine (message : String) : String :=
  "[python error] " ++ formatError message

/-- The lines that `loadRequiredPackages` sends to the host output sink: a
single aggregate warning when some packages failed to load, or a warning when
package loading itself faulted (caught inside the helper, never
propagated). -/
def packageWarnings (loadOutcome : Except String (List PackageLoadResult)) : List String :=
  match loadOutcome with
  | Except.error e => ["[warning] Package loading encountered issues: " ++ e ++ "\n"]
  | Except.ok results =>
    let failed := results.filter fun r => !r.success
    if failed.isEmpty then []
    else
      ["[warning] Some packages failed to load: " ++
        String.intercalate ", " (failed.map fun r => r.packageName) ++ "\n"]

/-- `PythonEvaluator.evaluateChunk`: every await — the initialization guard,
package loading and chunk execution — sits inside one try/catch whose handler
formats the fault and sends it to the host output sink.  Returns the
completion signal (`ok` = the returned promise resolves) and the list of
strings sent through `conductor.sendOutput`, in order.  A guest execution
fault is wrapped by `executePythonCode` as
`"Python execution failed: " ++ fault` before the handler formats it. -/
def evaluateChunk (env : ChunkEnv) : Except String Unit × List String :=
  match env.initOutcome with
  | Except.error e => (Except.ok (), [pythonErrorLine e])
  | Except.ok _ =>
    let warn := packageWarnings env.loadOutcome
    match env.execOutcome with
    | Except.ok _ => (Except.ok (), warn)
    | Except.error s =>
      (Except.ok (), warn ++ [pythonErrorLine ("Python execution failed: " ++ s)])

/-- Shared concrete environment: micropip ready, every external call
succeeds. -/
def envReady : LoadEnv := ⟨true, fun _ => Except.ok (), fun _ => Except.ok (), 9, 4⟩

/-- Shared concrete environment: micropip not ready yet. -/
def envNotReady : LoadEnv := ⟨false, fun _ => Except.ok (), fun _ => Except.ok (), 0, 5⟩

/-- Concrete cache with one failure entry, for the C10 witness. -/
def c10CacheW : PackageCache := ⟨[], [("q", "boom")], []⟩

/-- Concrete later operations (a load of another package under a ready
installer), for the C10 witness. -/
def c10OpsW : List CacheOp := [CacheOp.load envReady "requests"]

/-- Concrete cache with a cached success, for the C4 witness. -/
def c4LoadedW : PackageCache := ⟨["numpy"], [], []⟩

/-- Concrete cache with a cached failure, for the C4 witness. -/
def c4FailedW : PackageCache := ⟨[], [("leftpad", "nope")], []⟩

/-- Concrete three-name batch for the C3 witness: the middle dispatch
faults. -/
def names3W : List String := ["numpy", "nosuchpkg", "pandas"]

/-- Outcomes for the C3 witness batch. -/
def outcomes3W : List DispatchOutcome :=
  [DispatchOutcome.completes envReady emptyCache,
   DispatchOutcome.faults (some "boom"),
   DispatchOutcome.completes envReady emptyCache]

/-- Concrete evaluation environment with a guest-code fault, for the C5
witness. -/
def chunkEnvW : ChunkEnv := ⟨Except.ok (), Except.ok [], Except.error "NameError: x"⟩

/-! Helper lemmas about the `Set` / `Map` models. -/

theorem setHas_iff (s : List String) (q : String) : setHas s q = true ↔ q ∈ s := by
  induction s with
  | nil => simp [setHas]
  | cons a t ih =>
    by_cases h : a = q
    · simp [setHas, h, List.mem_cons]
    · simp only [setHas, if_neg h, ih, List.mem_cons]
      constructor
      · exact fun hm => Or.inr hm
      · rintro (he | hm)
        · exact absurd he.symm h
        · exact hm

theorem mem_setAdd (s : List String) (x q : String) : q ∈ setAdd s x ↔ q = x ∨ q ∈ s := by
  induction s with
  | nil => simp [setAdd]
  | cons a t ih =>
    by_cases h : a = x
    · subst h
      simp only [setAdd, if_pos, List.mem_cons]
      tauto
    · simp only [setAdd, if_neg h, List.mem_cons, ih]
      tauto

theorem mapHas_mapSet {α : Type} (m : List (String × α)) (k q : String) (v : α) :
    mapHas (mapSet m k v) q = true ↔ q = k ∨ mapHas m q = true := by
  induction m with
  | nil =>
    by_cases h : q = k
    · simp [mapSet, mapHas, h]
    · have h1 : ¬ k = q := fun hk => h hk.symm
      simp [mapSet, mapHas, h, h1]
  | cons e t ih =>
    by_cases hek : e.1 = k
    · by_cases hq : q = k
      · simp [mapSet, hek, mapHas, hq]
      · have h1 : ¬ k = q := fun hk => hq hk.symm
        have h2 : ¬ e.1 = q := by rw [hek]; exact h1
        simp [mapSet, hek, mapHas, h1, h2, hq]
    · simp only [mapSet, if_neg hek]
      by_cases hq : e.1 = q
      · simp [mapHas, hq]
      · simp [mapHas, hq, ih]

theorem mapGet?_mapSet_ne {α : Type} (m : List (String × α)) (k q : String) (v : α)
    (h : q ≠ k) : mapGet? (mapSet m k v) q = mapGet? m q := by
  induction m with
  | nil =>
    have h1 : ¬ k = q := fun hk => h hk.symm
    simp [mapSet, mapGet?, h1]
  | cons e t ih =>
    by_cases hek : e.1 = k
    · have h2 : ¬ k = q := fun hk => h hk.symm
      have h3 : ¬ e.1 = q := by rw [hek]; exact h2
      simp [mapSet, hek, mapGet?, h2, h3]
    · simp only [mapSet, if_neg hek]
      by_cases hq : e.1 = q
      · simp [mapGet?, hq]
      · simp [mapGet?, hq, ih]

theorem exclusiveCache_iff (c : PackageCache) :
    exclusiveCache c = true ↔ ∀ p, p ∈ c.loaded → mapHas c.failed p = false := by
  simp [exclusiveCache, List.all_eq_true]

/-! Branch lemmas for `loadPackageWithStrategy`. -/

theorem lpws_cached_success (env : LoadEnv) (cfg : PackageManagerConfig) (c : PackageCache)
    (n : String) (h : (cfg.enableCaching && setHas c.loaded n) = true) :
    loadPackageWithStrategy env cfg c n
      = (⟨n, true, LoadMethod.pyodide, none, 0⟩, c, []) := by
  simp [loadPackageWithStrategy, h]

theorem lpws_cached_failure (env : LoadEnv) (cfg : PackageManagerConfig) (c : PackageCache)
    (n : String) (h1 : (cfg.enableCaching && setHas c.loaded n) = false)
    (h2 : (cfg.enableCaching && mapHas c.failed n) = true) :
    loadPackageWithStrategy env cfg c n
      = (⟨n, false, LoadMethod.pyodide, mapGet? c.failed n, 0⟩, c, []) := by
  simp [loadPackageWithStrategy, h1, h2]

theorem lpws_miss_ok (env : LoadEnv) (cfg : PackageManagerConfig) (c : PackageCache)
    (n : String) (res : PackageLoadResult) (acts : List LoadAction)
    (h1 : (cfg.enableCaching && setHas c.loaded n) = false)
    (h2 : (cfg.enableCaching && mapHas c.failed n) = false)
    (hs : strategyCall env n = (Except.ok res, acts)) :
    loadPackageWithStrategy env cfg c n
      = ({ res with loadTime := env.elapsed }, cacheRecord cfg env c n (Except.ok res), acts) := by
  simp [loadPackageWithStrategy, h1, h2, hs]

theorem lpws_miss_err (env : LoadEnv) (cfg : PackageManagerConfig) (c : PackageCache)
    (n : String) (msg : String) (acts : List LoadAction)
    (h1 : (cfg.enableCaching && setHas c.loaded n) = false)
    (h2 : (cfg.enableCaching && mapHas c.failed n) = false)
    (hs : strategyCall env n = (Except.error msg, acts)) :
    loadPackageWithStrategy env cfg c n
      = (⟨n, false, LoadMethod.pyodide, some msg, env.elapsed⟩,
         cacheRecord cfg env c n (Except.error msg), acts) := by
  simp [loadPackageWithStrategy, h1, h2, hs]

theorem strategyCall_ok (env : LoadEnv) (n : String) (res : PackageLoadResult)
    (acts : List LoadAction) (h : strategyCall env n = (Except.ok res, acts)) :
    res.packageName = n ∧ res.success = true := by
  unfold strategyCall loadWithPyodide loadWithMicropip at h
  split at h
  · cases ho : env.pyodideLoadOutcome (getPyodidePackageName n) with
    | ok u =>
      simp only [ho, Prod.mk.injEq] at h
      rw [← (Except.ok.inj h.1)]
      exact ⟨rfl, rfl⟩
    | error e =>
      simp only [ho, Prod.mk.injEq] at h
      exact Except.noConfusion h.1
  · split at h
    · exact Except.noConfusion (Prod.mk.inj h).1
    · cases ho : env.micropipInstallOutcome n with
      | ok u =>
        simp only [ho, Prod.mk.injEq] at h
        rw [← (Except.ok.inj h.1)]
        exact ⟨rfl, rfl⟩
      | error e =>
        simp only [ho, Prod.mk.injEq] at h
        exact Except.noConfusion h.1

theorem exclusive_lpws (env : LoadEnv) (cfg : PackageManagerConfig) (c : PackageCache)
    (n : String) (h : exclusiveCache c = true) :
    exclusiveCache (loadPackageWithStrategy env cfg c n).2.1 = true := by
  cases b1 : (cfg.enableCaching && setHas c.loaded n) with
  | true => rw [lpws_cached_success env cfg c n b1]; exact h
  | false =>
    cases b2 : (cfg.enableCaching && mapHas c.failed n) with
    | true => rw [lpws_cached_failure env cfg c n b1 b2]; exact h
    | false =>
      rcases hs : strategyCall env n with ⟨r, acts⟩
      cases r with
      | ok res =>
        rw [lpws_miss_ok env cfg c n res acts b1 b2 hs]
        have hsucc := (strategyCall_ok env n res acts hs).2
        cases hcc : cfg.enableCaching with
        | false => simpa [cacheRecord, hcc] using h
        | true =>
          simp only [cacheRecord, hcc, if_pos, hsucc]
          rw [exclusiveCache_iff] at h ⊢
          intro p hp
          rcases (mem_setAdd c.loaded n p).mp hp with he | hm
          · subst he
            cases hmf : mapHas c.failed p with
            | false => rfl
            | true => rw [hcc, hmf] at b2; simp at b2
          · exact h p hm
      | error msg =>
        rw [lpws_miss_err env cfg c n msg acts b1 b2 hs]
        cases hcc : cfg.enableCaching with
        | false => simpa [cacheRecord, hcc] using h
        | true =>
          simp only [cacheRecord, hcc, if_pos]
          rw [exclusiveCache_iff] at h ⊢
          intro p hp
          have hpn : p ≠ n := by
            intro he
            subst he
            have hsp : setHas c.loaded p = true := (setHas_iff _ _).mpr hp
            rw [hcc, hsp] at b1
            simp at b1
          cases hmm : mapHas (mapSet c.failed n msg) p with
          | false => rfl
          | true =>
            rcases (mapHas_mapSet c.failed n p msg).mp hmm with he | hm
            · exact absurd he hpn
            · rw [h p hp] at hm; exact hm.symm

theorem exclusive_applyCacheOp (cfg : PackageManagerConfig) (c : PackageCache) (op : CacheOp)
    (h : exclusiveCache c = true) : exclusiveCache (applyCacheOp cfg c op) = true := by
  cases op with
  | load env n => exact exclusive_lpws env cfg c n h
  | clear => rfl

theorem exclusive_runOps : ∀ (ops : List CacheOp) (cfg : PackageManagerConfig) (c : PackageCache),
    exclusiveCache c = true → exclusiveCache (runCacheOps cfg c ops) = true
  | [], _, _, h => h
  | op :: ops, cfg, c, h =>
    exclusive_runOps ops cfg (applyCacheOp cfg c op) (exclusive_applyCacheOp cfg c op h)

/-- C1 (counterexample): the claimed invariant fails on the code.  The success
recording of `loadPackageWithStrategy` adds the name to `loaded` but never
removes it from `failed`, and with two overlapping in-flight loads of the same
name — both of which pass the synchronous cache checks before either settles,
exactly as two entries of one `loadPackages` batch do — the state in which
`"p"` sits in both `loaded` and `failed` is reachable: dispatch a failing and
a succeeding load of `"p"`, settle the failure, then settle the success. -/
theorem c1_counterexample :
    Relation.ReflTransGen (MgrStep defaultConfig 5) mgrInit
      ⟨⟨["p"], [("p", "e")], [("p", 5)]⟩, []⟩ ∧
    exclusiveCache ⟨["p"], [("p", "e")], [("p", 5)]⟩ = false ∧
    setHas ["p"] "p" = true ∧ mapHas [("p", "e")] "p" = true := by
  refine ⟨?_, by decide, by decide, by decide⟩
  have h1 : MgrStep defaultConfig 5 mgrInit ⟨emptyCache, [("p", false, "e")]⟩ :=
    MgrStep.dispatch mgrInit "p" false "e" rfl rfl rfl
  have h2 : MgrStep defaultConfig 5 ⟨emptyCache, [("p", false, "e")]⟩
      ⟨emptyCache, [("p", false, "e"), ("p", true, "ok")]⟩ :=
    MgrStep.dispatch _ "p" true "ok" rfl rfl rfl
  have h3 : MgrStep defaultConfig 5 ⟨emptyCache, [("p", false, "e"), ("p", true, "ok")]⟩
      ⟨⟨[], [("p", "e")], []⟩, [("p", true, "ok")]⟩ :=
    MgrStep.settleErr _ "p" "e" [] [("p", true, "ok")] rfl
  have h4 : MgrStep defaultConfig 5 ⟨⟨[], [("p", "e")], []⟩, [("p", true, "ok")]⟩
      ⟨⟨["p"], [("p", "e")], [("p", 5)]⟩, []⟩ :=
    MgrStep.settleOk _ "p" "ok" [] [] rfl
  exact Relation.ReflTransGen.head h1 (Relation.ReflTransGen.head h2
    (Relation.ReflTransGen.head h3 (Relation.ReflTransGen.single h4)))

/-- C1 (amended): for sequential, non-overlapping manager operations the
exclusivity invariant does hold at every reachable cache state — not because
the success recording removes a prior failure entry (it never touches
`failed`), but because a cached failure short-circuits every later load of
that name, so a success is never recorded for a name in `failed`. -/
theorem c1_amended (cfg : PackageManagerConfig) (ops : List CacheOp) :
    exclusiveCache (runCacheOps cfg emptyCache ops) = true :=
  exclusive_runOps ops cfg emptyCache rfl

theorem c10_inv_step (cfg : PackageManagerConfig) (hc : cfg.enableCaching = true) (p : String)
    (c : PackageCache) (op : CacheOp) (hop : op ≠ CacheOp.clear)
    (h1 : mapHas c.failed p = true) (h2 : setHas c.loaded p = false) :
    mapHas (applyCacheOp cfg c op).failed p = true ∧
    setHas (applyCacheOp cfg c op).loaded p = false ∧
    mapGet? (applyCacheOp cfg c op).failed p = mapGet? c.failed p := by
  cases op with
  | clear => exact absurd rfl hop
  | load env q =>
    simp only [applyCacheOp]
    cases b1 : (cfg.enableCaching && setHas c.loaded q) with
    | true => rw [lpws_cached_success env cfg c q b1]; exact ⟨h1, h2, rfl⟩
    | false =>
      cases b2 : (cfg.enableCaching && mapHas c.failed q) with
      | true => rw [lpws_cached_failure env cfg c q b1 b2]; exact ⟨h1, h2, rfl⟩
      | false =>
        have hfq : mapHas c.failed q = false := by
          cases hx : mapHas c.failed q with
          | false => rfl
          | true => rw [hc, hx] at b2; simp at b2
        have hqp : q ≠ p := by
          intro he
          subst he
          rw [h1] at hfq
          exact Bool.noConfusion hfq
        rcases hs : strategyCall env q with ⟨r, acts⟩
        cases r with
        | ok res =>
          rw [lpws_miss_ok env cfg c q res acts b1 b2 hs]
          have hsucc := (strategyCall_ok env q res acts hs).2
          simp only [cacheRecord, hc, if_pos, hsucc, if_true]
          refine ⟨h1, ?_, trivial⟩
          cases hsh : setHas (setAdd c.loaded q) p with
          | false => rfl
          | true =>
            rcases (mem_setAdd c.loaded q p).mp ((setHas_iff _ _).mp hsh) with he | hm
            · exact absurd he.symm hqp
            · rw [(setHas_iff c.loaded p).mpr hm] at h2; exact h2
        | error msg =>
          rw [lpws_miss_err env cfg c q msg acts b1 b2 hs]
          simp only [cacheRecord, hc, if_pos]
          refine ⟨?_, h2, ?_⟩
          · exact (mapHas_mapSet c.failed q p msg).mpr (Or.inr h1)
          · exact mapGet?_mapSet_ne c.failed q p msg (fun he => hqp he.symm)

theorem c10_inv_run : ∀ (ops : List CacheOp) (cfg : PackageManagerConfig)
    (hc : cfg.enableCaching = true) (p : String) (c : PackageCache),
    (∀ op ∈ ops, op ≠ CacheOp.clear) → mapHas c.failed p = true → setHas c.loaded p = false →
    mapHas (runCacheOps cfg c ops).failed p = true ∧
    setHas (runCacheOps cfg c ops).loaded p = false ∧
    mapGet? (runCacheOps cfg c ops).failed p = mapGet? c.failed p
  | [], _, _, _, _, _, h1, h2 => ⟨h1, h2, rfl⟩
  | op :: ops, cfg, hc, p, c, hops, h1, h2 => by
    have hstep := c10_inv_step cfg hc p c op (hops op (List.mem_cons_self op ops)) h1 h2
    have hrest := c10_inv_run ops cfg hc p (applyCacheOp cfg c op)
      (fun o ho => hops o (List.mem_cons_of_mem op ho)) hstep.1 hstep.2.1
    exact ⟨hrest.1, hrest.2.1, hrest.2.2.trans hstep.2.2⟩

/-- C10: with caching enabled, any load of `p` whose result is unsuccessful
leaves `p` recorded in the failure cache (and absent from `loaded`); and from
any such state, after any sequence of further loads that does not include
`clearCache()`, every subsequent `loadPackageWithStrategy(p)` — under any
environment, in particular one where micropip has since become ready — returns
the originally cached failure with `loadTime` 0, leaves the cache unchanged,
and performs no native-loader or installer call (empty action list). -/
theorem c10_failed_never_retried (cfg : PackageManagerConfig)
    (hc : cfg.enableCaching = true) (p : String) :
    (∀ (env : LoadEnv) (c : PackageCache),
      (loadPackageWithStrategy env cfg c p).1.success = false →
      mapHas (loadPackageWithStrategy env cfg c p).2.1.failed p = true ∧
      setHas (loadPackageWithStrategy env cfg c p).2.1.loaded p = false) ∧
    (∀ (c0 : PackageCache), mapHas c0.failed p = true → setHas c0.loaded p = false →
      ∀ (ops : List CacheOp), (∀ op ∈ ops, op ≠ CacheOp.clear) →
      ∀ (env : LoadEnv),
        loadPackageWithStrategy env cfg (runCacheOps cfg c0 ops) p
          = (⟨p, false, LoadMethod.pyodide, mapGet? c0.failed p, 0⟩,
             runCacheOps cfg c0 ops, [])) := by
  constructor
  · intro env c hfail
    cases b1 : (cfg.enableCaching && setHas c.loaded p) with
    | true =>
      rw [lpws_cached_success env cfg c p b1] at hfail
      exact Bool.noConfusion hfail
    | false =>
      have hl : setHas c.loaded p = false := by
        cases hx : setHas c.loaded p with
        | false => rfl
        | true => rw [hc, hx] at b1; simp at b1
      cases b2 : (cfg.enableCaching && mapHas c.failed p) with
      | true =>
        rw [lpws_cached_failure env cfg c p b1 b2]
        have hf : mapHas c.failed p = true := by
          cases hx : mapHas c.failed p with
          | false => rw [hc, hx] at b2; simp at b2
          | true => rfl
        exact ⟨hf, hl⟩
      | false =>
        rcases hs : strategyCall env p with ⟨r, acts⟩
        cases r with
        | ok res =>
          rw [lpws_miss_ok env cfg c p res acts b1 b2 hs] at hfail
          have hx : res.success = false := hfail
          rw [(strategyCall_ok env p res acts hs).2] at hx
          exact Bool.noConfusion hx
        | error msg =>
          rw [lpws_miss_err env cfg c p msg acts b1 b2 hs]
          simp only [cacheRecord, hc, if_pos]
          exact ⟨(mapHas_mapSet c.failed p p msg).mpr (Or.inl rfl), hl⟩
  · intro c0 h1 h2 ops hops env
    have hinv := c10_inv_run ops cfg hc p c0 hops h1 h2
    have heq := lpws_cached_failure env cfg (runCacheOps cfg c0 ops) p
      (by rw [hc, hinv.2.1]; rfl) (by rw [hc, hinv.1]; rfl)
    rw [heq, hinv.2.2]

/-- Witness for C10 at concrete inputs. -/
theorem c10_witness :
    defaultConfig.enableCaching = true ∧
    mapHas c10CacheW.failed "q" = true ∧ setHas c10CacheW.loaded "q" = false ∧
    loadPackageWithStrategy envReady defaultConfig (runCacheOps defaultConfig c10CacheW c10OpsW) "q"
      = (⟨"q", false, LoadMethod.pyodide, some "boom", 0⟩,
         runCacheOps defaultConfig c10CacheW c10OpsW, []) := by
  have hops : ∀ op ∈ c10OpsW, op ≠ CacheOp.clear := by
    intro op hop
    simp only [c10OpsW, List.mem_singleton] at hop
    subst hop
    exact fun hcon => CacheOp.noConfusion hcon
  exact ⟨rfl, rfl, rfl,
    (c10_failed_never_retried defaultConfig rfl "q").2 c10CacheW rfl rfl c10OpsW hops envReady⟩

/-- C4: with caching enabled, `loadPackageWithStrategy` short-circuits on the
cache.  A name in the success cache yields an immediate success with
`loadTime` 0; a name in the failure cache (and not in the success cache, which
the code checks first) yields an immediate failure carrying the cached error
message with `loadTime` 0.  In both cases the cache is unchanged and no
native-loader or installer call is made (empty action list). -/
theorem c4_cache_short_circuit (env : LoadEnv) (cfg : PackageManagerConfig)
    (c : PackageCache) (n : String) (hc : cfg.enableCaching = true) :
    (setHas c.loaded n = true →
      loadPackageWithStrategy env cfg c n
        = (⟨n, true, LoadMethod.pyodide, none, 0⟩, c, [])) ∧
    (setHas c.loaded n = false → mapHas c.failed n = true →
      loadPackageWithStrategy env cfg c n
        = (⟨n, false, LoadMethod.pyodide, mapGet? c.failed n, 0⟩, c, [])) := by
  constructor
  · intro h
    exact lpws_cached_success env cfg c n (by rw [hc, h]; rfl)
  · intro h1 h2
    exact lpws_cached_failure env cfg c n (by rw [hc, h1]; rfl) (by rw [hc, h2]; rfl)

/-- Witness for C4 at concrete inputs. -/
theorem c4_witness :
    defaultConfig.enableCaching = true ∧
    loadPackageWithStrategy envReady defaultConfig c4LoadedW "numpy"
      = (⟨"numpy", true, LoadMethod.pyodide, none, 0⟩, c4LoadedW, []) ∧
    loadPackageWithStrategy envReady defaultConfig c4FailedW "leftpad"
      = (⟨"leftpad", false, LoadMethod.pyodide, some "nope", 0⟩, c4FailedW, []) := by
  refine ⟨rfl, ?_, ?_⟩
  · exact (c4_cache_short_circuit envReady defaultConfig c4LoadedW "numpy" rfl).1 rfl
  · exact (c4_cache_short_circuit envReady defaultConfig c4FailedW "leftpad" rfl).2 rfl rfl

/-- C6: requesting a load for a name outside the native package table while
micropip is not marked ready (the name being uncached) produces a result with
`success = false` whose error message says the installer is not ready, with no
external call made; and at the `loadPackages` batch level this failure is
delivered as the per-package result of a one-element batch, not raised. -/
theorem c6_installer_not_ready (env : LoadEnv) (cfg : PackageManagerConfig)
    (c : PackageCache) (n : String)
    (hb : isPyodideBuiltinPackage n = false) (hr : env.micropipReady = false)
    (h1 : (cfg.enableCaching && setHas c.loaded n) = false)
    (h2 : (cfg.enableCaching && mapHas c.failed n) = false) :
    (loadPackageWithStrategy env cfg c n).1
      = ⟨n, false, LoadMethod.pyodide,
          some "micropip is not ready. Ensure essential packages are loaded first.",
          env.elapsed⟩ ∧
    (loadPackageWithStrategy env cfg c n).2.2 = [] ∧
    loadPackages cfg [n] [DispatchOutcome.completes env c]
      = [⟨n, false, LoadMethod.pyodide,
          some "micropip is not ready. Ensure essential packages are loaded first.",
          env.elapsed⟩] := by
  have hs : strategyCall env n
      = (Except.error "micropip is not ready. Ensure essential packages are loaded first.",
         []) := by
    simp [strategyCall, hb, loadWithMicropip, hr]
  have heq := lpws_miss_err env cfg c n _ [] h1 h2 hs
  refine ⟨by rw [heq], by rw [heq], ?_⟩
  simp [loadPackages, dispatchResult, heq]

/-- Witness for C6 at concrete inputs. -/
theorem c6_witness :
    isPyodideBuiltinPackage "some_pip_package" = false ∧
    envNotReady.micropipReady = false ∧
    (loadPackageWithStrategy envNotReady defaultConfig emptyCache "some_pip_package").1
      = ⟨"some_pip_package", false, LoadMethod.pyodide,
          some "micropip is not ready. Ensure essential packages are loaded first.", 5⟩ := by
  refine ⟨by decide, rfl, ?_⟩
  exact (c6_installer_not_ready envNotReady defaultConfig emptyCache "some_pip_package"
    (by decide) rfl rfl rfl).1

theorem ensureIter_ready : ∀ n : Nat, 1 ≤ n → ensureIter n = ⟨some 0, 1, 1⟩
  | 1, _ => rfl
  | n + 2, _ => by
    have ih := ensureIter_ready (n + 1) (Nat.le_add_left 1 n)
    show (ensurePyodideLoaded true (ensureIter (n + 1))).1 = _
    rw [ih]
    rfl

/-- C2: starting from the fresh worker state, after any positive number of
calls to the initialization guard exactly one underlying initialization
operation has been started, the first call returned that operation (id 0),
and every further call returns that same stored operation.  Overlapping calls
are covered because the guard assigns `pyodideReady` synchronously, before any
suspension point, so they execute as consecutive calls. -/
theorem c2_single_flight (n : Nat) (h : 1 ≤ n) :
    (ensureIter n).startedOps = 1 ∧
    (ensurePyodideLoaded true initGlobals).2 = Except.ok 0 ∧
    (ensurePyodideLoaded true (ensureIter n)).2 = Except.ok 0 := by
  rw [ensureIter_ready n h]
  exact ⟨rfl, rfl, rfl⟩

/-- Witness for C2 at two consecutive calls. -/
theorem c2_witness :
    1 ≤ 2 ∧ (ensureIter 2).startedOps = 1 ∧
    (ensurePyodideLoaded true (ensureIter 2)).2 = Except.ok 0 :=
  ⟨by decide, (c2_single_flight 2 (by decide)).1, (c2_single_flight 2 (by decide)).2.2⟩

theorem zip_getElem?_eq {α β : Type} : ∀ (as : List α) (bs : List β) (i : Nat) (a : α) (b : β),
    as[i]? = some a → bs[i]? = some b → (as.zip bs)[i]? = some (a, b)
  | [], _, _, _, _, ha, _ => by simp at ha
  | _ :: _, [], _, _, _, _, hb => by simp at hb
  | x :: xs, y :: ys, 0, a, b, ha, hb => by
    simp only [List.getElem?_cons_zero, Option.some.injEq] at ha hb
    simp [List.zip_cons_cons, ha, hb]
  | x :: xs, y :: ys, i + 1, a, b, ha, hb => by
    simp only [List.getElem?_cons_succ] at ha hb
    simpa [List.zip_cons_cons] using zip_getElem?_eq xs ys i a b ha hb

theorem lpws_packageName (env : LoadEnv) (cfg : PackageManagerConfig) (c : PackageCache)
    (n : String) : (loadPackageWithStrategy env cfg c n).1.packageName = n := by
  cases b1 : (cfg.enableCaching && setHas c.loaded n) with
  | true => rw [lpws_cached_success env cfg c n b1]
  | false =>
    cases b2 : (cfg.enableCaching && mapHas c.failed n) with
    | true => rw [lpws_cached_failure env cfg c n b1 b2]
    | false =>
      rcases hs : strategyCall env n with ⟨r, acts⟩
      cases r with
      | ok res =>
        rw [lpws_miss_ok env cfg c n res acts b1 b2 hs]
        exact (strategyCall_ok env n res acts hs).1
      | error msg => rw [lpws_miss_err env cfg c n msg acts b1 b2 hs]

theorem dispatchResult_packageName (cfg : PackageManagerConfig) (n : String)
    (o : DispatchOutcome) : (dispatchResult cfg n o).packageName = n := by
  cases o with
  | completes env cache => exact lpws_packageName env cfg cache n
  | faults reason => rfl

/-- C3: `loadPackages` returns exactly one result per input name, each at the
index of its name, so in input order; the result at index `i` is a function of
`names[i]` and that dispatch's own outcome only, so one dispatch's fault
leaves every other result unaffected; a dispatch that faults (rejects) yields
a failure result carrying the fault's message (or `"Unknown error"` when the
message is absent or empty); and every result carries its input name. -/
theorem c3_batch_shape (cfg : PackageManagerConfig) (names : List String)
    (outcomes : List DispatchOutcome) (h : outcomes.length = names.length) :
    (loadPackages cfg names outcomes).length = names.length ∧
    ∀ (i : Nat) (n : String) (o : DispatchOutcome),
      names[i]? = some n → outcomes[i]? = some o →
      (loadPackages cfg names outcomes)[i]? = some (dispatchResult cfg n o) ∧
      (dispatchResult cfg n o).packageName = n ∧
      ∀ r, o = DispatchOutcome.faults r →
        (dispatchResult cfg n o).success = false ∧
        (dispatchResult cfg n o).error = some (jsOrElse r "Unknown error") := by
  constructor
  · simp [loadPackages, h]
  · intro i n o hn ho
    refine ⟨?_, dispatchResult_packageName cfg n o, ?_⟩
    · have hz := zip_getElem?_eq names outcomes i n o hn ho
      simp [loadPackages, hz]
    · intro r hr
      subst hr
      exact ⟨rfl, rfl⟩

/-- Witness for C3 at a concrete three-name batch. -/
theorem c3_witness :
    outcomes3W.length = names3W.length ∧
    (loadPackages defaultConfig names3W outcomes3W).length = 3 ∧
    (loadPackages defaultConfig names3W outcomes3W)[1]?
      = some ⟨"nosuchpkg", false, LoadMethod.pyodide, some "boom", 0⟩ := by
  refine ⟨rfl, ?_, ?_⟩
  · exact (c3_batch_shape defaultConfig names3W outcomes3W rfl).1
  · exact ((c3_batch_shape defaultConfig names3W outcomes3W rfl).2 1 "nosuchpkg"
      (DispatchOutcome.faults (some "boom")) rfl rfl).1

/-- C5 (counterexample): when the interpreter fails to initialize,
`evaluateChunk` does not reject: the initialization fault propagates out of
the initialization guard but is caught by `evaluateChunk`'s own try/catch,
reported through the host output sink, and the call completes normally —
contradicting the claim that such infrastructure faults are the case in which
`evaluateChunk` rejects. -/
theorem c5_counterexample :
    (evaluateChunk ⟨Except.error "Failed to load Pyodide script",
        Except.ok [], Except.ok ()⟩).1 = Except.ok () ∧
    (evaluateChunk ⟨Except.error "Failed to load Pyodide script",
        Except.ok [], Except.ok ()⟩).2
      = ["[python error] Failed to load Pyodide script"] := ⟨rfl, rfl⟩

/-- C5 (amended): `evaluateChunk` never rejects at all.  Every modelled fault
— a guest-code execution fault as well as an initialization fault — is caught
by its top-level handler, formatted, and sent to the host output sink as a
labeled error line, and the call completes normally. -/
theorem c5_never_rejects (env : ChunkEnv) :
    (evaluateChunk env).1 = Except.ok () ∧
    (∀ e, env.initOutcome = Except.error e →
      (evaluateChunk env).2 = [pythonErrorLine e]) ∧
    (∀ s, env.initOutcome = Except.ok () → env.execOutcome = Except.error s →
      pythonErrorLine ("Python execution failed: " ++ s) ∈ (evaluateChunk env).2) := by
  rcases env with ⟨init, load, exec⟩
  cases init with
  | error e =>
    refine ⟨rfl, ?_, ?_⟩
    · intro e' he
      cases he
      rfl
    · intro s hok
      exact absurd hok (by simp)
  | ok u =>
    cases u
    cases exec with
    | ok v =>
      refine ⟨rfl, ?_, ?_⟩
      · intro e he; cases he
      · intro s _ hex; cases hex
    | error s =>
      refine ⟨rfl, ?_, ?_⟩
      · intro e he; cases he
      · intro s' _ hex
        cases hex
        exact List.mem_append_right _ (List.mem_singleton.mpr rfl)

/-- Witness for C5 at a concrete guest fault. -/
theorem c5_witness :
    (evaluateChunk chunkEnvW).1 = Except.ok () ∧
    pythonErrorLine ("Python execution failed: " ++ "NameError: x")
      ∈ (evaluateChunk chunkEnvW).2 :=
  ⟨(c5_never_rejects chunkEnvW).1, (c5_never_rejects chunkEnvW).2.2 "NameError: x" rfl rfl⟩

/-- C7: scanning the five-line source yields package set
`{"pandas", "numpy"}`: exactly three declarations are emitted (lines 1, 2 and
5, for `pandas`, `os` and `numpy`), the comment line and the blank
`import  ` line produce none, and `os` is dropped by extraction as a
standard-library module. -/
theorem c7_scan_scenario :
    extractPackageNames (extractImports
      "import pandas as pd\nfrom os import path\n# import skip\nimport  \nfrom numpy import array, mean as m")
      = ["pandas", "numpy"] ∧
    (extractImports
      "import pandas as pd\nfrom os import path\n# import skip\nimport  \nfrom numpy import array, mean as m").map
      (fun d => d.line) = [1, 2, 5] ∧
    (extractImports
      "import pandas as pd\nfrom os import path\n# import skip\nimport  \nfrom numpy import array, mean as m").map
      (fun d => d.module) = ["pandas", "os", "numpy"] ∧
    isBuiltinPythonModule "os" = true := by decide

/-- C9 (counterexample): the normalizer does not strip wrapper prefixes
repeatedly.  The message `"Python execution failed: Error: boom"` — produced
when `executePythonCode` wraps a fault whose stringification is
`"Error: boom"` — is normalized to `"Error: boom"`, not to the innermost
message `"boom"`: the generic prefix is only stripped before (not after) the
execution-failed prefix, and each is stripped at most once. -/
theorem c9_counterexample :
    formatError "Python execution failed: Error: boom" = "Error: boom" ∧
    "Error: boom" ≠ "boom" := by decide

/-- C9 (amended): each wrapper is stripped at most once, in the fixed order
generic `"Error: "` prefix, then `"Python execution failed: "` prefix, then
first `"PythonError: "` occurrence.  A message wrapped once as
`"Python execution failed: PythonError: <inner>"` — the shape the evaluator
itself produces for a guest fault — is fully normalized to `<inner>`, while
repeated or reordered wrappers are not fully stripped. -/
theorem c9_amended :
    (∀ m : String,
      formatError ("Python execution failed: " ++ ("PythonError: " ++ m)) = m) ∧
    formatError "Error: Error: boom" = "Error: boom" ∧
    formatError "Python execution failed: Error: boom" = "Error: boom" := by
  refine ⟨?_, by decide, by decide⟩
  intro m
  obtain ⟨d⟩ := m
  rfl

theorem scanLine_mem_line {d : ImportStatement} {l : List Char} {n : Nat}
    (h : d ∈ scanLine l n) : d.line = n := by
  simp only [scanLine] at h
  split at h
  · simp at h
  · split at h
    · simp only [List.mem_singleton] at h
      subst h
      rfl
    · split at h
      · simp only [List.mem_singleton] at h
        subst h
        rfl
      · simp at h

theorem scanFrom_mem_le (d : ImportStatement) :
    ∀ (ls : List (List Char)) (n : Nat), d ∈ scanFrom n ls → n ≤ d.line
  | [], n, h => by simp [scanFrom] at h
  | l :: ls, n, h => by
    simp only [scanFrom] at h
    rcases List.mem_append.mp h with h1 | h2
    · exact Nat.le_of_eq (scanLine_mem_line h1).symm
    · exact Nat.le_of_succ_le (scanFrom_mem_le d ls (n + 1) h2)

theorem filter_scanFrom : ∀ (ls : List (List Char)) (n i : Nat) (h : i < ls.length),
    (scanFrom n ls).filter (fun d => d.line == n + i) = scanLine (ls.get ⟨i, h⟩) (n + i)
  | [], _, i, h => absurd h (by simp)
  | l :: ls, n, 0, h => by
    have e1 : (scanLine l n).filter (fun d => d.line == n + 0) = scanLine l n := by
      apply List.filter_eq_self.mpr
      intro d hd
      simp [scanLine_mem_line hd]
    have e2 : (scanFrom (n + 1) ls).filter (fun d => d.line == n + 0) = [] := by
      apply List.filter_eq_nil_iff.mpr
      intro d hd
      have hle := scanFrom_mem_le d ls (n + 1) hd
      simp only [beq_iff_eq]
      omega
    show (scanLine l n ++ scanFrom (n + 1) ls).filter (fun d => d.line == n + 0)
        = scanLine l (n + 0)
    rw [List.filter_append, e1, e2, List.append_nil, Nat.add_zero]
  | l :: ls, n, i + 1, h => by
    have e1 : (scanLine l n).filter (fun d => d.line == n + (i + 1)) = [] := by
      apply List.filter_eq_nil_iff.mpr
      intro d hd
      have hdl := scanLine_mem_line hd
      simp only [beq_iff_eq]
      omega
    have hlt : i < ls.length := Nat.lt_of_succ_lt_succ (by simpa using h)
    have e2 := filter_scanFrom ls (n + 1) i hlt
    show (scanLine l n ++ scanFrom (n + 1) ls).filter (fun d => d.line == n + (i + 1))
        = scanLine ((l :: ls).get ⟨i + 1, h⟩) (n + (i + 1))
    rw [List.filter_append, e1, List.nil_append]
    have harith : n + (i + 1) = (n + 1) + i := by omega
    simp only [harith]
    exact e2

theorem scanLine_from_xy (m : Nat) :
    scanLine "from x.y import m as n, p".data m
      = [⟨"x.y", some ["m", "p"], none, true, m⟩] := rfl

/-- C8 (counterexample): the emitted declaration for
`from x.y import m as n, p` carries no alias information at all — its `alias`
field is unset, because `extractImports` keeps only the item names computed by
`parseImportItems` and discards the per-item aliases — contradicting the claim
that the declaration records that `m` is aliased to `n`. -/
theorem c8_counterexample :
    extractImports "from x.y import m as n, p"
      = [⟨"x.y", some ["m", "p"], none, true, 1⟩] ∧
    (extractImports "from x.y import m as n, p").map (fun d => d.aliasName)
      = [none] := by decide

/-- C8 (amended): for every code chunk in which line `i+1` is
`from x.y import m as n, p`, the scanner emits exactly one declaration for
that line — with module `"x.y"`, the selective flag set, and items
`["m", "p"]`, but with no alias information (the item parser does detect
internally that `m` is aliased to `n`, as the second conjunct shows, yet the
alias is dropped from the emitted declaration) — and extraction over that
declaration yields the package name `"x"`. -/
theorem c8_amended (code : String) (i : Nat)
    (hi : i < (splitOnChar '\n' code.data).length)
    (hl : (splitOnChar '\n' code.data).get ⟨i, hi⟩ = "from x.y import m as n, p".data) :
    (extractImports code).filter (fun d => d.line == i + 1)
      = [⟨"x.y", some ["m", "p"], none, true, i + 1⟩] ∧
    parseImportItems "m as n, p".data = [("m", some "n"), ("p", none)] ∧
    extractPackageNames [⟨"x.y", some ["m", "p"], none, true, i + 1⟩] = ["x"] := by
  refine ⟨?_, by decide, rfl⟩
  have hf := filter_scanFrom (splitOnChar '\n' code.data) 1 i hi
  rw [hl, scanLine_from_xy] at hf
  have harith : 1 + i = i + 1 := Nat.add_comm 1 i
  simp only [harith] at hf
  exact hf

/-- Witness for C8 at a one-line chunk. -/
theorem c8_witness :
    0 < (splitOnChar '\n' "from x.y import m as n, p".data).length ∧
    (extractImports "from x.y import m as n, p").filter (fun d => d.line == 0 + 1)
      = [⟨"x.y", some ["m", "p"], none, true, 0 + 1⟩] := by
  refine ⟨by decide, ?_⟩
  exact (c8_amended "from x.y import m as n, p" 0 (by decide) (by decide)).1

